import Mathlib

/-!
Verification of the itinerary candidate-selection and route-sequencing core of
the WanderApp repository (`src/app/api/itinerary/route.ts`), as a shallow
embedding in Lean 4.

Modelling conventions:
* JavaScript numbers are modelled as `Option ℚ` (`JsNumber`): `none` stands for
  a non-finite value (`NaN`, `±Infinity`), `some q` for a finite value.
* `scoreCandidate` uses `Math.log10`, a transcendental function, so the score
  is valued in `ℝ` (`Real.logb 10`) and sorting by score uses a classical
  (noncomputable) comparison, mirroring the source comparator
  `scoreCandidate(b) - scoreCandidate(a)`.
* `haversineKm` in the source is a transcendental function of two coordinates
  (sin/cos/asin over floats).  No claim depends on its numeric values, so every
  definition that consumes it takes the distance function as an explicit
  parameter named `haversineKm`; theorems are proved for every distance
  function, hence in particular for the source's haversine formula.
* External I/O (`searchPlacesText`, `getPlaceDetails`, `computeRouteMinutes`,
  parking lookup) is modelled by oracle parameters.  A `none` result of the
  details/route oracles models a thrown provider error; for the best-effort
  lookups wrapped in try/catch the oracle parameter directly models the caught
  outcome.
* Best-effort enrichment outputs that no claim mentions (photo URL, review
  snippet, per-stop parking, maps links, price level) are omitted from the
  enriched stop record: in the source they never influence control flow, stop
  identity or durations.
* JavaScript array indexing with the clamped `swapIndex` is modelled for
  integer indices (the client always sends integer array indices); a
  fractional index would in JavaScript create a non-index property and is out
  of the model.
-/

/-- A latitude/longitude pair (`LatLng` in the source). -/
structure LatLng where
  latitude : ℚ
  longitude : ℚ
deriving DecidableEq, Repr, Inhabited

/-- A JavaScript number: `none` models a non-finite value (NaN or ±∞). -/
abbrev JsNumber := Option ℚ

/-- `clamp(n, min, max)` from the source (route.ts lines 43–46): a non-finite
input collapses to `min`, a finite input is clamped with
`Math.max(min, Math.min(max, n))`. -/
def clamp (n : JsNumber) (lo hi : ℚ) : ℚ :=
  match n with
  | none => lo
  | some q => max lo (min hi q)

/-- `pickStopCount(totalMinutes)` (route.ts lines 333–335). -/
def pickStopCount (totalMinutes : ℚ) : ℕ :=
  if totalMinutes ≤ 140 then 2 else 3

/-- `splitStopDurations(totalMinutes, travelTotal, stopCount)`
(route.ts lines 337–346).  `Math.floor` is the rational floor. -/
def splitStopDurations (totalMinutes travelTotal : ℚ) (stopCount : ℕ) : List ℚ :=
  let remaining := max 60 (totalMinutes - travelTotal)
  if stopCount = 2 then
    let a : ℚ := (⌊remaining * (0.55 : ℚ)⌋ : ℚ)
    [a, remaining - a]
  else
    let a : ℚ := (⌊remaining * (0.42 : ℚ)⌋ : ℚ)
    let b : ℚ := (⌊remaining * (0.35 : ℚ)⌋ : ℚ)
    [a, b, remaining - a - b]

/-- `totalMinutes` as computed in the fresh-plan branch (route.ts line 671):
`clamp(Number(body?.totalMinutes ?? 150), 120, 420)`.  The outer `Option`
models an absent field (the default 150 applies); the inner `JsNumber` models
a present but possibly non-numeric value. -/
def freshTotalMinutes (raw : Option JsNumber) : ℚ :=
  clamp (raw.getD (some 150)) 120 420

/-- `bufferMinutes` as computed in the fresh-plan branch (route.ts line 678):
`clamp(Number(body?.bufferMinutes ?? 0), 0, 20)`. -/
def freshBufferMinutes (raw : Option JsNumber) : ℚ :=
  clamp (raw.getD (some 0)) 0 20

theorem clamp_mem (n : JsNumber) (lo hi : ℚ) (h : lo ≤ hi) :
    lo ≤ clamp n lo hi ∧ clamp n lo hi ≤ hi := by
  cases n with
  | none => exact ⟨le_refl lo, h⟩
  | some q => exact ⟨le_max_left _ _, max_le h (min_le_left _ _)⟩

/-- C10: `clamp` returns `min` on every non-finite input and otherwise a value
in `[min, max]` whenever `min ≤ max`; consequently the fresh-plan branch
computes (and echoes back in its response) a `totalMinutes` in `[120, 420]`
and a `bufferMinutes` in `[0, 20]`, whatever the client supplies. -/
theorem clamp_safe (n : JsNumber) (lo hi : ℚ) (hlohi : lo ≤ hi)
    (t b : Option JsNumber) :
    (n = none → clamp n lo hi = lo) ∧
    (lo ≤ clamp n lo hi ∧ clamp n lo hi ≤ hi) ∧
    (120 ≤ freshTotalMinutes t ∧ freshTotalMinutes t ≤ 420) ∧
    (0 ≤ freshBufferMinutes b ∧ freshBufferMinutes b ≤ 20) := by
  refine ⟨?_, clamp_mem n lo hi hlohi, clamp_mem _ 120 420 (by norm_num),
    clamp_mem _ 0 20 (by norm_num)⟩
  intro hn
  subst hn
  rfl

theorem clamp_safe_witness :
    ((120 : ℚ) ≤ 420) ∧ clamp none 120 420 = 120 ∧
      (0 ≤ freshBufferMinutes (some none) ∧ freshBufferMinutes (some none) ≤ 20) :=
  ⟨by norm_num, (clamp_safe none 120 420 (by norm_num) none (some none)).1 rfl,
    (clamp_safe none 120 420 (by norm_num) none (some none)).2.2.2⟩

theorem freshTotalMinutes_concrete :
    freshTotalMinutes (some (some 130)) = 130 := by
  with_unfolding_all rfl

/-- C5: with total minutes clamped to [120, 420] (fresh-plan branch, line 671),
`pickStopCount` yields 2 whenever the clamped value is at most 140 and 3
whenever it is at least 141; the stop count is always 2 or 3 and depends only
on the total minutes. -/
theorem pickStopCount_spec (raw : Option JsNumber) :
    ((freshTotalMinutes raw ≤ 140 → pickStopCount (freshTotalMinutes raw) = 2) ∧
     (141 ≤ freshTotalMinutes raw → pickStopCount (freshTotalMinutes raw) = 3)) ∧
    (pickStopCount (freshTotalMinutes raw) = 2 ∨
      pickStopCount (freshTotalMinutes raw) = 3) := by
  unfold pickStopCount
  refine ⟨⟨fun h => by simp [h], fun h => ?_⟩, by split <;> simp⟩
  have hv : ¬ freshTotalMinutes raw ≤ 140 := by linarith
  simp [hv]

theorem pickStopCount_spec_witness :
    freshTotalMinutes (some (some 130)) ≤ 140 ∧
      pickStopCount (freshTotalMinutes (some (some 130))) = 2 :=
  ⟨by rw [freshTotalMinutes_concrete]; norm_num,
    (pickStopCount_spec (some (some 130))).1.1
      (by rw [freshTotalMinutes_concrete]; norm_num)⟩

/-- C4 as stated is false at a concrete input: with totalMinutes = 120,
travelTotal = 70 and 2 stops, the allocator's durations sum to 60 (the
`max(60, ·)` floor), so sum + travelTotal = 130, while
max(60, totalMinutes) = 120. -/
theorem splitStopDurations_claim_false :
    (splitStopDurations 120 70 2).sum + 70 = 130 ∧
      max (60 : ℚ) 120 = 120 ∧ (130 : ℚ) ≠ 120 := by
  refine ⟨by with_unfolding_all rfl, by norm_num, by norm_num⟩

/-- C4 amended: for stopCount ∈ {2, 3} the allocated stop durations (before
the 25-minute floor) sum exactly — with no rounding slack — to
`max 60 (totalMinutes - travelTotal)`; consequently the sum plus travelTotal
equals `max(60, totalMinutes)` exactly whenever
`travelTotal ≤ totalMinutes - 60` (and equals `60 + travelTotal` otherwise). -/
theorem splitStopDurations_sum (totalMinutes travelTotal : ℚ) (stopCount : ℕ)
    (htravel : 0 ≤ travelTotal) (hn : stopCount = 2 ∨ stopCount = 3) :
    (splitStopDurations totalMinutes travelTotal stopCount).sum
      = max 60 (totalMinutes - travelTotal) ∧
    (travelTotal ≤ totalMinutes - 60 →
      (splitStopDurations totalMinutes travelTotal stopCount).sum + travelTotal
        = max 60 totalMinutes) := by
  have hsum : (splitStopDurations totalMinutes travelTotal stopCount).sum
      = max 60 (totalMinutes - travelTotal) := by
    rcases hn with h | h <;> subst h <;> simp [splitStopDurations]
  refine ⟨hsum, fun ht => ?_⟩
  rw [hsum, max_eq_right (by linarith : (60 : ℚ) ≤ totalMinutes - travelTotal),
    max_eq_right (by linarith : (60 : ℚ) ≤ totalMinutes)]
  ring

theorem splitStopDurations_sum_witness :
    ((0 : ℚ) ≤ 70) ∧ ((2 : ℕ) = 2 ∨ (2 : ℕ) = 3) ∧ ((70 : ℚ) ≤ 200 - 60) ∧
      (splitStopDurations 200 70 2).sum + 70 = max 60 200 :=
  ⟨by norm_num, Or.inl rfl, by norm_num,
    (splitStopDurations_sum 200 70 2 (by norm_num) (Or.inl rfl)).2 (by norm_num)⟩

/-- The category of a place: `"food" | "park" | "attraction"` in the source. -/
inductive Category where
  | food
  | park
  | attraction
deriving DecidableEq, Repr, Inhabited

/-- A raw place record as returned by the `searchPlacesText` oracle
(`places.id`, `displayName.text`, `types`, `rating`, `userRatingCount`,
`location`).  An empty `id` models a missing/empty id (falsy in JS); a `none`
rating or review count models a missing or non-numeric field. -/
structure Place where
  id : String := ""
  displayName : String := ""
  types : List String := []
  rating : Option ℚ := none
  userRatingCount : Option ℕ := none
  location : Option LatLng := none
deriving DecidableEq, Repr, Inhabited

/-- `pickCategory(types)` (route.ts lines 74–100): food tags first, then park
tags, attraction as the default. -/
def pickCategory (types : List String) : Category :=
  if types.contains "restaurant" || types.contains "cafe" ||
      types.contains "bakery" || types.contains "bar" ||
      types.contains "meal_takeaway" || types.contains "meal_delivery" then
    .food
  else if types.contains "park" || types.contains "natural_feature" ||
      types.contains "campground" || types.contains "rv_park" ||
      types.contains "hiking_area" then
    .park
  else
    .attraction

/-- The denylist of non-touristic place types (route.ts lines 104–133). -/
def noisyTypes : List String :=
  ["accounting", "atm", "bank", "car_dealer", "car_rental", "car_repair",
   "car_wash", "courthouse", "dentist", "doctor", "electrician", "finance",
   "gas_station", "insurance_agency", "lawyer", "local_government_office",
   "moving_company", "painter", "pharmacy", "plumber", "police", "post_office",
   "real_estate_agency", "school", "storage", "transit_station",
   "vehicle_inspection", "hospital"]

/-- `isNoisyType(types)` (route.ts lines 102–139): noisy iff the tag list is
non-empty and every tag is in the denylist. -/
def isNoisyType (types : List String) : Bool :=
  let nonBad := types.filter (fun x => !noisyTypes.contains x)
  decide (nonBad.length = 0 ∧ 0 < types.length)

/-- The scenic type set used by rider mode (route.ts lines 152–160). -/
def scenicBoostTypes : List String :=
  ["tourist_attraction", "park", "natural_feature", "viewpoint",
   "scenic_lookout", "hiking_area", "campground"]

/-- `scoreCandidate(p, riderMode)` (route.ts lines 141–170).  `Math.log10` is
`Real.logb 10`, so the score is real-valued; missing rating/review count
default to 0 exactly as the `typeof` checks do. -/
noncomputable def scoreCandidate (p : Place) (riderMode : Bool) : ℝ :=
  let rating : ℚ := p.rating.getD 0
  let count : ℕ := p.userRatingCount.getD 0
  let score : ℝ := (rating : ℝ) * 12 + Real.logb 10 (max 1 (count : ℝ)) * 8
  let cat := pickCategory p.types
  let boost : ℝ :=
    if cat = .attraction then 1.12 else if cat = .park then 1.08 else 1.0
  if riderMode then
    let isScenic := p.types.any (fun x => scenicBoostTypes.contains x)
    let hasFood := p.types.contains "cafe" || p.types.contains "restaurant" ||
      p.types.contains "bakery"
    if isScenic then score * boost * 1.18
    else if hasFood then score * boost * 1.08
    else score * boost
  else score * boost

theorem scoreCandidate_base_mono (p q : Place)
    (hr : p.rating.getD 0 ≤ q.rating.getD 0)
    (hc : p.userRatingCount.getD 0 ≤ q.userRatingCount.getD 0) :
    ((p.rating.getD 0 : ℚ) : ℝ) * 12 +
        Real.logb 10 (max 1 ((p.userRatingCount.getD 0 : ℕ) : ℝ)) * 8 ≤
      ((q.rating.getD 0 : ℚ) : ℝ) * 12 +
        Real.logb 10 (max 1 ((q.userRatingCount.getD 0 : ℕ) : ℝ)) * 8 := by
  have h1 : ((p.rating.getD 0 : ℚ) : ℝ) ≤ ((q.rating.getD 0 : ℚ) : ℝ) := by
    exact_mod_cast hr
  have h2 : Real.logb 10 (max 1 ((p.userRatingCount.getD 0 : ℕ) : ℝ)) ≤
      Real.logb 10 (max 1 ((q.userRatingCount.getD 0 : ℕ) : ℝ)) := by
    refine Real.logb_le_logb_of_le (by norm_num)
      (lt_of_lt_of_le zero_lt_one (le_max_left _ _)) ?_
    exact max_le_max le_rfl (by exact_mod_cast hc)
  have := mul_le_mul_of_nonneg_right h1 (by norm_num : (0:ℝ) ≤ 12)
  have := mul_le_mul_of_nonneg_right h2 (by norm_num : (0:ℝ) ≤ 8)
  linarith

/-- C7: holding the tag list fixed, `scoreCandidate` is monotonically
non-decreasing in the (defaulted) rating and in the (defaulted) review count,
for both values of the `riderMode` flag. -/
theorem scoreCandidate_mono (p q : Place) (riderMode : Bool)
    (htypes : p.types = q.types)
    (hr : p.rating.getD 0 ≤ q.rating.getD 0)
    (hc : p.userRatingCount.getD 0 ≤ q.userRatingCount.getD 0) :
    scoreCandidate p riderMode ≤ scoreCandidate q riderMode := by
  have hbase := scoreCandidate_base_mono p q hr hc
  unfold scoreCandidate
  rw [htypes]
  cases riderMode with
  | false =>
    simp only [Bool.false_eq_true, if_false]
    split <;> [skip; split] <;> nlinarith [hbase]
  | true =>
    simp only [if_true]
    split <;> [skip; split] <;>
      · split <;> [skip; split] <;> nlinarith [hbase]

theorem scoreCandidate_mono_witness :
    (Place.mk "a" "" ["museum"] (some 3) (some 10) none).types =
        (Place.mk "b" "" ["museum"] (some 4) (some 20) none).types ∧
      (Place.mk "a" "" ["museum"] (some 3) (some 10) none).rating.getD 0 ≤
        (Place.mk "b" "" ["museum"] (some 4) (some 20) none).rating.getD 0 ∧
      scoreCandidate (Place.mk "a" "" ["museum"] (some 3) (some 10) none) true ≤
        scoreCandidate (Place.mk "b" "" ["museum"] (some 4) (some 20) none) true :=
  ⟨rfl, by norm_num,
    scoreCandidate_mono _ _ true rfl (by norm_num) (by norm_num)⟩

open Classical in
/-- The sort comparator used everywhere the source sorts candidates:
`(a, b) => scoreCandidate(b, riderMode) - scoreCandidate(a, riderMode)`, i.e.
descending by score (JavaScript `Array.prototype.sort` is stable, as is
`List.mergeSort`). -/
noncomputable def scoreLe (riderMode : Bool) (a b : Place) : Bool :=
  decide (scoreCandidate b riderMode ≤ scoreCandidate a riderMode)

/-- The quality/radius filter body of the fresh-plan pool (route.ts lines
732–744): the two rating-confidence rejections — note the `rating > 0`
conjunct in the source — then the 10 km radius check against the destination
center when one was found. -/
def qualityRadiusGate (haversineKm : LatLng → LatLng → ℚ)
    (destCenter : Option LatLng) (p : Place) : Bool :=
  let rating : ℚ := p.rating.getD 0
  let count : ℕ := p.userRatingCount.getD 0
  if 20 ≤ count ∧ 0 < rating ∧ rating < (4.1 : ℚ) then false
  else if 5 ≤ count ∧ 0 < rating ∧ rating < (3.9 : ℚ) then false
  else
    match destCenter with
    | some c => decide (haversineKm c (p.location.getD default) ≤ 10)
    | none => true

/-- The filter chain of the fresh-plan candidate pool (route.ts lines
728–744), before the score sort: exclusion set, presence of id and
coordinates, the noisy-type rejection, and `qualityRadiusGate`. -/
def freshPool (haversineKm : LatLng → LatLng → ℚ) (excludeSet : List String)
    (destCenter : Option LatLng) (pooled : List Place) : List Place :=
  (((pooled.filter (fun p => p.id != "" && !excludeSet.contains p.id)).filter
      (fun p => p.id != "" && p.location.isSome)).filter
    (fun p => !isNoisyType p.types)).filter
    (qualityRadiusGate haversineKm destCenter)

/-- The fresh-plan candidate pool after filtering and the descending score
sort (route.ts lines 728–745). -/
noncomputable def freshFiltered (haversineKm : LatLng → LatLng → ℚ)
    (riderMode : Bool) (excludeSet : List String) (destCenter : Option LatLng)
    (pooled : List Place) : List Place :=
  (freshPool haversineKm excludeSet destCenter pooled).mergeSort
    (scoreLe riderMode)

/-- A merged candidate with 25 reviews and no rating field (defaulting to 0). -/
def unratedPlace : Place :=
  { id := "x", userRatingCount := some 25, location := some ⟨0, 0⟩ }

/-- C3 as stated is false at a concrete input: a candidate with 25 reviews and
a missing rating (defaulting to 0 < 4.1) survives the fresh-plan filter,
because the source's gate also requires `rating > 0`. -/
theorem freshFiltered_claim_false :
    20 ≤ unratedPlace.userRatingCount.getD 0 ∧
      unratedPlace.rating.getD 0 < (4.1 : ℚ) ∧
      freshFiltered (fun _ _ => 0) false [] none [unratedPlace] =
        [unratedPlace] := by
  refine ⟨by decide, by norm_num [unratedPlace], ?_⟩
  have hpool : freshPool (fun _ _ => 0) [] none [unratedPlace] =
      [unratedPlace] := by with_unfolding_all rfl
  unfold freshFiltered
  rw [hpool]
  simp

/-- C3 amended: the rating-confidence gate of the fresh-plan pool rejects a
merged candidate only when its rating is strictly positive: every candidate
with review count ≥ 20 and 0 < rating < 4.1 is rejected, and every candidate
with review count ≥ 5 and 0 < rating < 3.9 is rejected; candidates whose
rating is missing or 0 are exempt from the rating gate. -/
theorem freshFiltered_rating_gate (haversineKm : LatLng → LatLng → ℚ)
    (riderMode : Bool) (excludeSet : List String) (destCenter : Option LatLng)
    (pooled : List Place) (p : Place)
    (hrej : (20 ≤ p.userRatingCount.getD 0 ∧ 0 < p.rating.getD 0 ∧
              p.rating.getD 0 < (4.1 : ℚ)) ∨
            (5 ≤ p.userRatingCount.getD 0 ∧ 0 < p.rating.getD 0 ∧
              p.rating.getD 0 < (3.9 : ℚ))) :
    p ∉ freshFiltered haversineKm riderMode excludeSet destCenter pooled := by
  intro hmem
  have hmem2 : p ∈ freshPool haversineKm excludeSet destCenter pooled :=
    ((List.mergeSort_perm _ _).mem_iff).1 hmem
  have hgate : qualityRadiusGate haversineKm destCenter p = true :=
    List.of_mem_filter hmem2
  by_cases h1 : 20 ≤ p.userRatingCount.getD 0 ∧ 0 < p.rating.getD 0 ∧
      p.rating.getD 0 < (4.1 : ℚ)
  · simp [qualityRadiusGate, h1] at hgate
  · rcases hrej with h | h
    · exact absurd h h1
    · simp [qualityRadiusGate, h1, h] at hgate

/-- A merged candidate with 25 reviews and a positive rating of 4.0. -/
def lowRatedPlace : Place :=
  { id := "y", rating := some 4, userRatingCount := some 25,
    location := some ⟨0, 0⟩ }

theorem freshFiltered_rating_gate_witness :
    (20 ≤ lowRatedPlace.userRatingCount.getD 0 ∧
        0 < lowRatedPlace.rating.getD 0 ∧
        lowRatedPlace.rating.getD 0 < (4.1 : ℚ)) ∧
      lowRatedPlace ∉
        freshFiltered (fun _ _ => 0) false [] none [lowRatedPlace] :=
  ⟨⟨by decide, by norm_num [lowRatedPlace], by norm_num [lowRatedPlace]⟩,
    freshFiltered_rating_gate (fun _ _ => 0) false [] none [lowRatedPlace]
      lowRatedPlace
      (Or.inl ⟨by decide, by norm_num [lowRatedPlace],
        by norm_num [lowRatedPlace]⟩)⟩

/-- The scan of `orderByNearestNeighbor`'s inner loop (route.ts lines
217–227): index of the remaining place with the smallest distance to the
most recently appended location.  `i` is the index of the list head, `best`
the best index so far (initially 0), `bd` the best distance so far
(`none` = +∞); entries without coordinates are skipped. -/
def bestIdxGo (haversineKm : LatLng → LatLng → ℚ) (lastLoc : LatLng) :
    List Place → ℕ → ℕ → Option ℚ → ℕ
  | [], _, best, _ => best
  | p :: ps, i, best, bd =>
    match p.location with
    | none => bestIdxGo haversineKm lastLoc ps (i + 1) best bd
    | some loc =>
      let d := haversineKm lastLoc loc
      match bd with
      | none => bestIdxGo haversineKm lastLoc ps (i + 1) i (some d)
      | some b =>
        if d < b then bestIdxGo haversineKm lastLoc ps (i + 1) i (some d)
        else bestIdxGo haversineKm lastLoc ps (i + 1) best bd

/-- `bestIdx` over a whole remaining list, starting as in the source with
`bestIdx = 0` and `bestD = +∞`. -/
def bestIdx (haversineKm : LatLng → LatLng → ℚ) (lastLoc : LatLng)
    (l : List Place) : ℕ :=
  bestIdxGo haversineKm lastLoc l 0 0 none

theorem bestIdxGo_lt (haversineKm : LatLng → LatLng → ℚ) (lastLoc : LatLng) :
    ∀ (l : List Place) (i best : ℕ) (bd : Option ℚ) (N : ℕ),
      best < N → i + l.length ≤ N →
      bestIdxGo haversineKm lastLoc l i best bd < N := by
  intro l
  induction l with
  | nil => intro i best bd N hb _; simpa [bestIdxGo] using hb
  | cons p ps ih =>
    intro i best bd N hb hlen
    have hi : i < N := by simp at hlen; omega
    have hlen2 : i + 1 + ps.length ≤ N := by simp at hlen; omega
    unfold bestIdxGo
    cases p.location with
    | none => exact ih (i + 1) best bd N hb hlen2
    | some loc =>
      cases bd with
      | none => exact ih (i + 1) i _ N hi hlen2
      | some b =>
        by_cases hd : haversineKm lastLoc loc < b
        · simpa [hd] using ih (i + 1) i _ N hi hlen2
        · simpa [hd] using ih (i + 1) best _ N hb hlen2

theorem bestIdx_lt (haversineKm : LatLng → LatLng → ℚ) (lastLoc : LatLng)
    (l : List Place) (h : l ≠ []) :
    bestIdx haversineKm lastLoc l < l.length := by
  have hl : 0 < l.length := List.length_pos.2 h
  exact bestIdxGo_lt haversineKm lastLoc l 0 0 none l.length hl (by omega)

/-- The nearest-neighbor loop of `orderByNearestNeighbor` (route.ts lines
209–229): while places remain, append the one with the smallest distance to
the last appended place (or simply shift the next one when the last appended
place has no coordinates). -/
def nnLoop (haversineKm : LatLng → LatLng → ℚ) :
    List Place → List Place → List Place
  | ordered, [] => ordered
  | ordered, r :: rs =>
    match ordered.getLast?.bind Place.location with
    | none => nnLoop haversineKm (ordered ++ [r]) rs
    | some lastLoc =>
      let j := bestIdx haversineKm lastLoc (r :: rs)
      nnLoop haversineKm (ordered ++ [(r :: rs).getD j r])
        ((r :: rs).eraseIdx j)
termination_by _ remaining => remaining.length
decreasing_by
  · simp
  · have hj : bestIdx haversineKm lastLoc (r :: rs) < (r :: rs).length :=
      bestIdx_lt haversineKm lastLoc (r :: rs) (by simp)
    simp [List.length_eraseIdx_of_lt hj]

theorem getD_cons_eraseIdx_perm {α : Type} (d : α) :
    ∀ (l : List α) (j : ℕ), j < l.length →
      ((l.getD j d) :: l.eraseIdx j).Perm l := by
  intro l
  induction l with
  | nil => intro j h; simp at h
  | cons a l ih =>
    intro j h
    cases j with
    | zero => simp [List.eraseIdx]
    | succ j =>
      have h2 : j < l.length := by simpa using h
      have hstep : ((a :: l).getD (j + 1) d :: (a :: l).eraseIdx (j + 1)) =
          (l.getD j d :: a :: l.eraseIdx j) := by
        simp [List.eraseIdx, List.getD]
      rw [hstep]
      exact (List.Perm.swap a (l.getD j d) (l.eraseIdx j)).trans
        ((ih j h2).cons a)

theorem nnLoop_perm (haversineKm : LatLng → LatLng → ℚ) :
    ∀ (ordered remaining : List Place),
      (nnLoop haversineKm ordered remaining).Perm (ordered ++ remaining) := by
  intro ordered remaining
  induction ordered, remaining using nnLoop.induct haversineKm with
  | case1 ordered => simp [nnLoop]
  | case2 ordered r rs hlast ih =>
    rw [show nnLoop haversineKm ordered (r :: rs) =
        nnLoop haversineKm (ordered ++ [r]) rs from by
          conv_lhs => unfold nnLoop
          rw [hlast]]
    simpa using ih
  | case3 ordered r rs lastLoc hlast j ih =>
    rw [show nnLoop haversineKm ordered (r :: rs) =
        nnLoop haversineKm (ordered ++ [(r :: rs).getD j r])
          ((r :: rs).eraseIdx j) from by
          conv_lhs => unfold nnLoop
          rw [hlast]]
    refine ih.trans ?_
    have hj : j < (r :: rs).length :=
      bestIdx_lt haversineKm lastLoc (r :: rs) (by simp)
    have hperm := getD_cons_eraseIdx_perm r (r :: rs) j hj
    have hass : (ordered ++ [(r :: rs).getD j r]) ++ (r :: rs).eraseIdx j =
        ordered ++ ((r :: rs).getD j r :: (r :: rs).eraseIdx j) := by simp
    rw [hass]
    exact List.Perm.append_left ordered hperm

/-- `orderByNearestNeighbor(list, riderMode)` (route.ts lines 201–232),
generalized over the sort comparator `le` (the source instantiates it with
the descending-score comparator, see `orderByNearestNeighbor` below): lists
of length ≤ 2 are returned unchanged; otherwise the list is sorted by `le`,
the head becomes the start, and the nearest-neighbor loop orders the rest.
The trailing `.filter(Boolean)` of the source is the identity here since
every entry is a (non-null) place. -/
def orderByNearestNeighborWith (le : Place → Place → Bool)
    (haversineKm : LatLng → LatLng → ℚ) (list : List Place) : List Place :=
  if list.length ≤ 2 then list
  else
    match list.mergeSort le with
    | [] => []
    | s :: rest => nnLoop haversineKm [s] rest

/-- `orderByNearestNeighbor(list, riderMode)` with the source's comparator
`(a, b) => scoreCandidate(b, riderMode) - scoreCandidate(a, riderMode)`. -/
noncomputable def orderByNearestNeighbor
    (haversineKm : LatLng → LatLng → ℚ) (riderMode : Bool)
    (list : List Place) : List Place :=
  orderByNearestNeighborWith (scoreLe riderMode) haversineKm list

theorem orderByNearestNeighborWith_perm (le : Place → Place → Bool)
    (haversineKm : LatLng → LatLng → ℚ) (list : List Place) :
    (orderByNearestNeighborWith le haversineKm list).Perm list := by
  unfold orderByNearestNeighborWith
  split
  · exact List.Perm.refl list
  · have hsort := List.mergeSort_perm list le
    cases h : list.mergeSort le with
    | nil =>
      rw [h] at hsort
      exact (List.Perm.nil_eq hsort ▸ List.Perm.refl ([] : List Place))
    | cons s rest =>
      rw [h] at hsort
      exact (nnLoop_perm haversineKm [s] rest).trans hsort

/-- C6: the nearest-neighbor route sequencer returns its input unchanged on
lists of at most 2 elements; on lists of 3 or more places with pairwise
distinct ids and present coordinates, no place id is ever revisited (the
output's id list has no duplicate) — for every distance function and both
rider modes. -/
theorem orderByNearestNeighbor_spec (haversineKm : LatLng → LatLng → ℚ)
    (riderMode : Bool) (list : List Place) :
    (list.length ≤ 2 →
      orderByNearestNeighbor haversineKm riderMode list = list) ∧
    (3 ≤ list.length → (list.map Place.id).Nodup →
      (∀ p ∈ list, p.location.isSome) →
      ((orderByNearestNeighbor haversineKm riderMode list).map
        Place.id).Nodup) := by
  constructor
  · intro h
    unfold orderByNearestNeighbor orderByNearestNeighborWith
    simp [h]
  · intro _ hnd _
    have hperm := orderByNearestNeighborWith_perm (scoreLe riderMode)
      haversineKm list
    exact ((hperm.map Place.id).nodup_iff).2 hnd

theorem orderByNearestNeighbor_spec_witness :
    3 ≤ ([⟨"p1", "", [], none, none, some ⟨0, 0⟩⟩,
          ⟨"p2", "", [], none, none, some ⟨1, 0⟩⟩,
          ⟨"p3", "", [], none, none, some ⟨2, 0⟩⟩] : List Place).length ∧
      ((orderByNearestNeighbor (fun _ _ => 0) false
          [⟨"p1", "", [], none, none, some ⟨0, 0⟩⟩,
           ⟨"p2", "", [], none, none, some ⟨1, 0⟩⟩,
           ⟨"p3", "", [], none, none, some ⟨2, 0⟩⟩]).map Place.id).Nodup :=
  ⟨by decide,
    (orderByNearestNeighbor_spec (fun _ _ => 0) false
      [⟨"p1", "", [], none, none, some ⟨0, 0⟩⟩,
       ⟨"p2", "", [], none, none, some ⟨1, 0⟩⟩,
       ⟨"p3", "", [], none, none, some ⟨2, 0⟩⟩]).2
      (by decide) (by decide) (by decide)⟩

/-- Travel mode (`"DRIVE" | "WALK"` in the source). -/
inductive Mode where
  | DRIVE
  | WALK
deriving DecidableEq, Repr, Inhabited

/-- A raw stop of a swap request body (`body.stops[i]`), after the string
coercions `String(s?.placeId ?? "").trim()` / `String(s?.title ?? "").trim()`
at the parse boundary.  `durationMin`: outer `none` = field missing (the
`?? 40` default applies), inner `none` = present but non-numeric (NaN). -/
structure RawStop where
  placeId : String := ""
  title : String := ""
  durationMin : Option JsNumber := none
  lat : JsNumber := none
  lng : JsNumber := none
deriving DecidableEq, Repr, Inhabited

/-- A parsed swap-request stop (an element of `stopsInput`). -/
structure Stop where
  placeId : String
  title : String
  durationMin : ℚ
  lat : JsNumber
  lng : JsNumber
deriving DecidableEq, Repr, Inhabited

/-- One element of `stopsInput` (route.ts lines 390–396):
`durationMin: clamp(Number(s?.durationMin ?? 40), 20, 180)`. -/
def parseStop (s : RawStop) : Stop :=
  { placeId := s.placeId, title := s.title,
    durationMin := clamp (s.durationMin.getD (some 40)) 20 180,
    lat := s.lat, lng := s.lng }

/-- `stopsInput` (route.ts lines 389–397): parse each raw stop, keep only
those with a non-empty (truthy) placeId. -/
def parseStops (l : List RawStop) : List Stop :=
  (l.map parseStop).filter (fun s => s.placeId != "")

/-- The part of a `getPlaceDetails` response the core reads (the oracle's
value).  `openNow` is `regularOpeningHours?.openNow`; `displayName` is
`displayName?.text` (`none` = absent). -/
structure Details where
  displayName : Option String := none
  address : Option String := none
  location : Option LatLng := none
  types : List String := []
  rating : Option ℚ := none
  userRatingCount : Option ℕ := none
  openNow : Option Bool := none
  weekdayText : Option (List String) := none
deriving DecidableEq, Repr, Inhabited

/-- A parking lookup result (`ParkingOption` in the source; `lat`/`lng` are
`none` when the provider's first hit has no numeric coordinates). -/
structure ParkingOption where
  placeId : Option String := none
  name : String := "Parking"
  address : Option String := none
  lat : Option ℚ := none
  lng : Option ℚ := none
deriving DecidableEq, Repr, Inhabited

/-- The enriched stop record (the subset of the source's `StopDetails` that
influences control flow, identity, coordinates or durations; see the header
for the omitted best-effort fields).  `loc` models the pair
`lat = Number(details?.location?.latitude)`,
`lng = Number(details?.location?.longitude)`; `none` = NaN. -/
structure StopDetails where
  placeId : String
  title : String
  loc : Option LatLng := none
  openNow : Option Bool := none
deriving DecidableEq, Repr, Inhabited

/-- A plan item: a stop (with its duration) or a travel leg. -/
inductive PlanItem where
  | stop (placeId : String) (title : String) (durationMin : ℚ)
      (loc : Option LatLng) (openNow : Option Bool)
  | travel (title : String) (durationMin : ℚ) (mode : Mode)
deriving DecidableEq, Repr, Inhabited

/-- An error response: HTTP status and message. -/
structure ErrResp where
  status : ℕ
  error : String
deriving DecidableEq, Repr, Inhabited

/-- The (placeId, durationMin) projection of the stop items of a plan. -/
def stopEntries : List PlanItem → List (String × ℚ)
  | [] => []
  | PlanItem.stop pid _ d _ _ :: rest => (pid, d) :: stopEntries rest
  | PlanItem.travel _ _ _ :: rest => stopEntries rest

/-- `clamp(Number(body?.swapIndex ?? -1), 0, 10)` (route.ts line 370) on
integer inputs: a missing or non-numeric `swapIndex` (both modelled `none`)
clamps to 0 exactly as `clamp(-1, 0, 10)` resp. `clamp(NaN, 0, 10) `do. -/
def swapIndexVal (swapIndex : Option ℤ) : ℤ :=
  match swapIndex with
  | none => 0
  | some n => max 0 (min 10 n)

/-- A swap request body after the JS primitive coercions of route.ts lines
360–375 (`String(...)`, `Number(...)`, `Boolean(...)`). -/
structure SwapRequest where
  destination : String := ""
  totalMinutes : Option JsNumber := none
  parkOnce : Bool := false
  riderMode : Bool := false
  bufferMinutes : Option JsNumber := none
  swapIndex : Option ℤ := none
  swapPlaceId : String := ""
  swapLat : JsNumber := none
  swapLng : JsNumber := none
  stops : List RawStop := []
deriving DecidableEq, Repr, Inhabited

/-- Everything the swap branch has computed by route.ts line 452, just
before the candidate sort. -/
structure SwapPrepared where
  destination : String
  totalMinutes : ℚ
  parkOnce : Bool
  riderMode : Bool
  bufferMinutes : ℚ
  stopsInput : List Stop
  idx : ℕ
  swapPlaceId : String
  swapCenter : LatLng
  targetCategory : Category
  excludeIds : List String
  maxKm : ℚ
  candidates : List Place
deriving DecidableEq, Repr, Inhabited

/-- The swap branch from its entry to the construction of the candidate
filter's inputs (route.ts lines 360–444): the validations in source order,
the category lookup for the swapped place (`fetch` is the `getPlaceDetails`
oracle; `none` models a thrown error, caught here into an empty type list,
line 417–422), the nearby search (`searchResult` is the caught outcome of
`searchPlacesText(qNearby, 30)`, lines 433–438 — `none` models a thrown
error, caught into `[]`), the exclusion set with the swapped-out id deleted
(lines 440–441), and the park-once radius (line 444). -/
def swapPrepare (fetch : String → Option Details)
    (searchResult : Option (List Place)) (hasKey : Bool)
    (r : SwapRequest) : Except ErrResp SwapPrepared :=
  if r.destination = "" then
    .error ⟨400, "Destination is required"⟩
  else if !hasKey then
    .error ⟨500,
      "Missing GOOGLE_MAPS_API_KEY. Add it to .env.local and restart npm run dev."⟩
  else
    let stopsInput := parseStops r.stops
    if stopsInput.length < 2 then
      .error ⟨400, "Not enough stops to swap"⟩
    else
      let si := swapIndexVal r.swapIndex
      if si < 0 ∨ (stopsInput.length : ℤ) ≤ si then
        .error ⟨400, "Invalid swap index"⟩
      else
        let idx := si.toNat
        let currentStop := stopsInput.getD idx default
        let centerLat : JsNumber :=
          match r.swapLat with
          | some q => some q
          | none => currentStop.lat
        let centerLng : JsNumber :=
          match r.swapLng with
          | some q => some q
          | none => currentStop.lng
        if r.swapPlaceId = "" ∨ centerLat = none ∨ centerLng = none then
          .error ⟨400, "Invalid swap request"⟩
        else
          let swapTypes := ((fetch r.swapPlaceId).map Details.types).getD []
          .ok { destination := r.destination,
                totalMinutes := clamp (r.totalMinutes.getD (some 150)) 120 420,
                parkOnce := r.parkOnce, riderMode := r.riderMode,
                bufferMinutes := clamp (r.bufferMinutes.getD (some 0)) 0 20,
                stopsInput := stopsInput, idx := idx,
                swapPlaceId := r.swapPlaceId,
                swapCenter := ⟨centerLat.getD 0, centerLng.getD 0⟩,
                targetCategory := pickCategory swapTypes,
                excludeIds := (stopsInput.map Stop.placeId).filter
                  (fun x => x != r.swapPlaceId),
                maxKm := if r.parkOnce then 2 else 4,
                candidates := searchResult.getD [] }

/-- The swap candidate filter chain before the sort (route.ts lines
446–451): coordinates and id present, not in the exclusion set, not noisy,
matching the target category, within `maxKm` of the anchor. -/
def swapPool (haversineKm : LatLng → LatLng → ℚ) (excludeIds : List String)
    (targetCategory : Category) (swapCenter : LatLng) (maxKm : ℚ)
    (candidates : List Place) : List Place :=
  ((((candidates.filter (fun p => p.id != "" && p.location.isSome)).filter
      (fun p => !excludeIds.contains p.id)).filter
    (fun p => !isNoisyType p.types)).filter
    (fun p => pickCategory p.types == targetCategory)).filter
    (fun p => decide (haversineKm swapCenter (p.location.getD default) ≤ maxKm))

/-- The swap candidate list after filtering and the descending score sort
(route.ts lines 446–452). -/
noncomputable def swapFiltered (haversineKm : LatLng → LatLng → ℚ)
    (riderMode : Bool) (excludeIds : List String) (targetCategory : Category)
    (swapCenter : LatLng) (maxKm : ℚ) (candidates : List Place) : List Place :=
  (swapPool haversineKm excludeIds targetCategory swapCenter maxKm
    candidates).mergeSort (scoreLe riderMode)

/-- The replacement-selection loop (route.ts lines 454–469), applied to
`filtered.slice(0, 12)`: skip candidates with an empty id, skip candidates
whose detail re-fetch throws (`fetch` returns `none`), skip candidates
explicitly marked closed, accept the first remaining one. -/
def chooseReplacement (fetch : String → Option Details) :
    List Place → Option Place
  | [] => none
  | c :: cs =>
    if c.id = "" then chooseReplacement fetch cs
    else
      match fetch c.id with
      | none => chooseReplacement fetch cs
      | some d =>
        if d.openNow = some false then chooseReplacement fetch cs
        else some c

/-- The per-stop enrichment loop of the swap branch (route.ts lines
484–535), kept sequential: a thrown `getPlaceDetails` (oracle `none`) aborts
the request (caught by the outer handler as a 500), a stop explicitly closed
right now aborts with the distinct 404, otherwise the enriched stop is
collected.  Best-effort photo/review/parking enrichment is omitted (see
header). -/
def enrichStops (fetch : String → Option Details) :
    List Stop → Except ErrResp (List StopDetails)
  | [] => .ok []
  | s :: ss =>
    match fetch s.placeId with
    | none => .error ⟨500, "getPlaceDetails failed"⟩
    | some d =>
      if d.openNow = some false then
        .error ⟨404, "One of the stops is closed right now (" ++
          d.displayName.getD "Place" ++ "). Please regenerate."⟩
      else
        match enrichStops fetch ss with
        | .error e => .error e
        | .ok rest =>
          .ok ({ placeId := s.placeId, title := d.displayName.getD s.title,
                 loc := d.location, openNow := d.openNow } :: rest)

/-- Consecutive travel legs between enriched stops (route.ts lines 561–571,
573–583, 912–921, 924–934): one `computeRouteMinutes` call per consecutive
pair plus the per-leg buffer.  The `route` oracle returns the
already-converted minutes (`toMinsFromDuration` applied); `none` models a
thrown provider error, which aborts the whole request as a 500. -/
def consecutiveLegs (route : Option LatLng → Option LatLng → Mode → Option ℚ)
    (mode : Mode) (buffer : ℚ) : List StopDetails → Except ErrResp (List ℚ)
  | [] => .ok []
  | [_] => .ok []
  | a :: b :: rest =>
    match route a.loc b.loc mode with
    | none => .error ⟨500, "computeRouteMinutes failed"⟩
    | some m =>
      match consecutiveLegs route mode buffer (b :: rest) with
      | .error e => .error e
      | .ok ls => .ok ((m + buffer) :: ls)

/-- The travel-minutes computation (route.ts lines 549–584 in the swap
branch, 900–935 in the fresh branch — identical code): when park-once is
active and the parking location has both coordinates and there is at least
one stop, a leading walk leg from the parking to the first stop is computed
and all consecutive legs are walking; otherwise all consecutive legs are
driving. -/
def planLegs (route : Option LatLng → Option LatLng → Mode → Option ℚ)
    (parkOnce : Bool) (parkLoc : Option ParkingOption) (buffer : ℚ)
    (stops : List StopDetails) : Except ErrResp (List ℚ) :=
  match parkOnce, parkLoc with
  | true, some pk =>
    match pk.lat, pk.lng with
    | some plat, some plng =>
      if 0 < stops.length then
        match route (some ⟨plat, plng⟩) (stops.getD 0 default).loc Mode.WALK with
        | none => .error ⟨500, "computeRouteMinutes failed"⟩
        | some m =>
          match consecutiveLegs route Mode.WALK buffer stops with
          | .error e => .error e
          | .ok ls => .ok ((m + buffer) :: ls)
      else consecutiveLegs route Mode.DRIVE buffer stops
    | _, _ => consecutiveLegs route Mode.DRIVE buffer stops
  | _, _ => consecutiveLegs route Mode.DRIVE buffer stops

/-- `stops[0]?.title ?? "first stop"`. -/
def firstTitle (stops : List StopDetails) : String :=
  match stops with
  | [] => "first stop"
  | s :: _ => s.title

/-- `stops[i+1]?.title ?? "next stop"`. -/
def nextTitle (rest : List StopDetails) : String :=
  match rest with
  | [] => "next stop"
  | t :: _ => t.title

/-- The pseudo-stop placeId: `parkOnceLocation.placeId || "parking"` (an
absent or empty id is falsy). -/
def parkingPlaceId (pk : ParkingOption) : String :=
  if pk.placeId.getD "" = "" then "parking" else pk.placeId.getD ""

/-- The drive-mode item interleaving (route.ts lines 639–651 swap, 990–1002
fresh): stop i carries `adjust (stopDurations[i] ?? 40)` — `adjust` is the
identity in the swap branch and `max 25` in the fresh branch, the only
difference between the two code blocks — and a drive leg follows while legs
remain (`i < travelMins.length`). -/
def driveItems (adjust : ℚ → ℚ) :
    List StopDetails → List ℚ → List ℚ → List PlanItem
  | [], _, _ => []
  | s :: rest, durs, legs =>
    PlanItem.stop s.placeId s.title (adjust (durs.headD 40)) s.loc s.openNow ::
      match legs with
      | [] => driveItems adjust rest durs.tail []
      | m :: ls =>
        PlanItem.travel ("Drive to " ++ nextTitle rest) m Mode.DRIVE ::
          driveItems adjust rest durs.tail ls

/-- The walk-mode item interleaving of the park-once branch (route.ts lines
627–638 swap, 978–989 fresh): a walk leg `travelMins[i+1] ?? 10` follows
every stop but the last; `legs` here is already `travelMins.drop 1`. -/
def walkItems (adjust : ℚ → ℚ) :
    List StopDetails → List ℚ → List ℚ → List PlanItem
  | [], _, _ => []
  | s :: rest, durs, legs =>
    PlanItem.stop s.placeId s.title (adjust (durs.headD 40)) s.loc s.openNow ::
      match rest with
      | [] => []
      | t :: _ =>
        PlanItem.travel ("Walk to " ++ t.title) (legs.headD 10) Mode.WALK ::
          walkItems adjust rest durs.tail legs.tail

/-- The item assembly (route.ts lines 589–651 swap, 940–1002 fresh): when
park-once is active and the parking location has coordinates, a 5-minute
"Park once" pseudo-stop is prepended, followed by the leading walk leg when
one was computed, then the walk interleaving; otherwise the drive
interleaving. -/
def planItems (adjust : ℚ → ℚ) (parkOnce : Bool)
    (parkLoc : Option ParkingOption) (stops : List StopDetails)
    (travelMins : List ℚ) (stopDurations : List ℚ) : List PlanItem :=
  match parkOnce, parkLoc with
  | true, some pk =>
    match pk.lat, pk.lng with
    | some plat, some plng =>
      PlanItem.stop (parkingPlaceId pk) "Park once" 5 (some ⟨plat, plng⟩)
          none ::
        (match travelMins with
         | [] => []
         | m :: _ =>
           [PlanItem.travel ("Walk to " ++ firstTitle stops) m Mode.WALK]) ++
        walkItems adjust stops stopDurations (travelMins.drop 1)
    | _, _ => driveItems adjust stops stopDurations travelMins
  | _, _ => driveItems adjust stops stopDurations travelMins

/-- `parkOnceLocation` (route.ts lines 538–546 swap, 890–898 fresh): the
parking lookup's caught outcome, consulted only when park-once is active and
at least one stop exists (`parkOnce && stops.length > 0`); otherwise it stays
absent. -/
def parkOnceLoc (parkOnce : Bool) (parkingOracle : Option ParkingOption)
    (stops : List StopDetails) : Option ParkingOption :=
  if parkOnce ∧ 0 < stops.length then parkingOracle else none

/-- `nextStops` (route.ts lines 476–480): a copy of `stopsInput` in which
only the swapped index's placeId is replaced. -/
def buildNextStops (stopsInput : List Stop) (idx : ℕ) (repId : String) :
    List Stop :=
  stopsInput.set idx { stopsInput.getD idx default with placeId := repId }

/-- `stopDurations` of the swap branch (route.ts line 587): the
client-provided durations, clamped again to [20, 180] and otherwise
untouched. -/
def swapStopDurations (nextStops : List Stop) : List ℚ :=
  nextStops.map (fun s => clamp (some s.durationMin) 20 180)

/-- The swap branch from the replacement choice to the response (route.ts
lines 454–663): choose a replacement among the top 12 sorted candidates (404
when none qualifies), replace only the swapped stop's placeId (lines
476–480), re-enrich all stops, look up the park-once parking (the caught
oracle outcome `parkingOracle`, lines 538–546), compute the legs, preserve
the client-supplied durations (line 587) and assemble the items. -/
def swapFinish (fetch : String → Option Details)
    (parkingOracle : Option ParkingOption)
    (route : Option LatLng → Option LatLng → Mode → Option ℚ)
    (filtered : List Place) (pre : SwapPrepared) :
    Except ErrResp (List PlanItem) :=
  match chooseReplacement fetch (filtered.take 12) with
  | none => .error ⟨404, "No OPEN replacement found nearby"⟩
  | some rep =>
    if rep.id = "" then .error ⟨404, "No OPEN replacement found nearby"⟩
    else
      let nextStops := buildNextStops pre.stopsInput pre.idx rep.id
      match enrichStops fetch nextStops with
      | .error e => .error e
      | .ok stops =>
        let parkOnceLocation := parkOnceLoc pre.parkOnce parkingOracle stops
        match planLegs route pre.parkOnce parkOnceLocation pre.bufferMinutes
            stops with
        | .error e => .error e
        | .ok travelMins =>
          .ok (planItems (fun d => d) pre.parkOnce parkOnceLocation stops
            travelMins (swapStopDurations nextStops))

/-- The whole swap branch (route.ts lines 359–663). -/
noncomputable def swapBranch (haversineKm : LatLng → LatLng → ℚ)
    (fetch : String → Option Details) (searchResult : Option (List Place))
    (parkingOracle : Option ParkingOption)
    (route : Option LatLng → Option LatLng → Mode → Option ℚ)
    (hasKey : Bool) (r : SwapRequest) : Except ErrResp (List PlanItem) :=
  match swapPrepare fetch searchResult hasKey r with
  | .error e => .error e
  | .ok pre =>
    swapFinish fetch parkingOracle route
      (swapFiltered haversineKm pre.riderMode pre.excludeIds
        pre.targetCategory pre.swapCenter pre.maxKm pre.candidates) pre

/-- The fresh-plan branch from the park-once parking lookup to the assembled
items (route.ts lines 890–1002): `parkingOracle` is the caught outcome of
the parking lookup, consulted only when park-once is active and a stop
exists; the legs, the travel total, `splitStopDurations` and the item
assembly with the 25-minute floor follow. -/
def freshAssemble (route : Option LatLng → Option LatLng → Mode → Option ℚ)
    (parkingOracle : Option ParkingOption) (parkOnce : Bool)
    (buffer totalMinutes : ℚ) (stops : List StopDetails) :
    Except ErrResp (List PlanItem) :=
  let parkOnceLocation := parkOnceLoc parkOnce parkingOracle stops
  match planLegs route parkOnce parkOnceLocation buffer stops with
  | .error e => .error e
  | .ok travelMins =>
    let travelTotal := travelMins.sum
    let stopDurations := splitStopDurations totalMinutes travelTotal
      stops.length
    .ok (planItems (fun d => max 25 d) parkOnce parkOnceLocation stops
      travelMins stopDurations)

/-- The (placeId, adjusted duration) list both interleavings produce. -/
def zipEntries (adjust : ℚ → ℚ) : List StopDetails → List ℚ → List (String × ℚ)
  | [], _ => []
  | s :: rest, durs =>
    (s.placeId, adjust (durs.headD 40)) :: zipEntries adjust rest durs.tail

theorem stopEntries_driveItems (adjust : ℚ → ℚ) :
    ∀ (stops : List StopDetails) (durs legs : List ℚ),
      stopEntries (driveItems adjust stops durs legs) =
        zipEntries adjust stops durs := by
  intro stops
  induction stops with
  | nil => intro durs legs; rfl
  | cons s rest ih =>
    intro durs legs
    cases legs with
    | nil => simp [driveItems, stopEntries, zipEntries, ih]
    | cons m ls => simp [driveItems, stopEntries, zipEntries, ih]

theorem stopEntries_walkItems (adjust : ℚ → ℚ) :
    ∀ (stops : List StopDetails) (durs legs : List ℚ),
      stopEntries (walkItems adjust stops durs legs) =
        zipEntries adjust stops durs := by
  intro stops
  induction stops with
  | nil => intro durs legs; rfl
  | cons s rest ih =>
    intro durs legs
    cases rest with
    | nil => simp [walkItems, stopEntries, zipEntries]
    | cons t r2 =>
      show (s.placeId, adjust (durs.headD 40)) ::
          stopEntries (walkItems adjust (t :: r2) durs.tail legs.tail) =
        (s.placeId, adjust (durs.headD 40)) ::
          zipEntries adjust (t :: r2) durs.tail
      rw [ih durs.tail legs.tail]

theorem zipEntries_fst (adjust : ℚ → ℚ) :
    ∀ (stops : List StopDetails) (durs : List ℚ),
      (zipEntries adjust stops durs).map Prod.fst =
        stops.map StopDetails.placeId := by
  intro stops
  induction stops with
  | nil => intro durs; rfl
  | cons s rest ih => intro durs; simp [zipEntries, ih]

theorem driveItems_modes (adjust : ℚ → ℚ) :
    ∀ (stops : List StopDetails) (durs legs : List ℚ) (t : String) (d : ℚ)
      (m : Mode),
      PlanItem.travel t d m ∈ driveItems adjust stops durs legs →
      m = Mode.DRIVE := by
  intro stops
  induction stops with
  | nil => intro durs legs t d m h; simp [driveItems] at h
  | cons s rest ih =>
    intro durs legs t d m h
    cases legs with
    | nil =>
      rcases List.mem_cons.1 h with h1 | h1
      · exact PlanItem.noConfusion h1
      · exact ih durs.tail [] t d m h1
    | cons mm ls =>
      rcases List.mem_cons.1 h with h1 | h1
      · exact PlanItem.noConfusion h1
      · rcases List.mem_cons.1 h1 with h2 | h2
        · injection h2 with ht hd hm
        · exact ih durs.tail ls t d m h2

theorem consecutiveLegs_total
    (route : Option LatLng → Option LatLng → Mode → Option ℚ) (mode : Mode)
    (buffer : ℚ) (hroute : ∀ a b md, (route a b md).isSome) :
    ∀ stops, ∃ ls, consecutiveLegs route mode buffer stops = .ok ls := by
  intro stops
  induction stops with
  | nil => exact ⟨[], rfl⟩
  | cons a rest ih =>
    cases rest with
    | nil => exact ⟨[], rfl⟩
    | cons b rest2 =>
      obtain ⟨ls, hls⟩ := ih
      obtain ⟨m, hm⟩ := Option.isSome_iff_exists.1 (hroute a.loc b.loc mode)
      refine ⟨(m + buffer) :: ls, ?_⟩
      unfold consecutiveLegs
      rw [hm, hls]

theorem planLegs_no_coords
    (route : Option LatLng → Option LatLng → Mode → Option ℚ)
    (parkLoc : Option ParkingOption) (buffer : ℚ) (stops : List StopDetails)
    (h : parkLoc = none ∨
      ∃ pk, parkLoc = some pk ∧ (pk.lat = none ∨ pk.lng = none)) :
    planLegs route true parkLoc buffer stops =
      consecutiveLegs route Mode.DRIVE buffer stops := by
  rcases h with h | ⟨pk, hpk, hc⟩
  · subst h; rfl
  · subst hpk
    rcases hc with hc | hc
    · cases hg : pk.lng <;> simp [planLegs, hc, hg]
    · cases hf : pk.lat <;> simp [planLegs, hf, hc]

theorem planItems_no_coords (adjust : ℚ → ℚ)
    (parkLoc : Option ParkingOption) (stops : List StopDetails)
    (tm sd : List ℚ)
    (h : parkLoc = none ∨
      ∃ pk, parkLoc = some pk ∧ (pk.lat = none ∨ pk.lng = none)) :
    planItems adjust true parkLoc stops tm sd = driveItems adjust stops sd tm := by
  rcases h with h | ⟨pk, hpk, hc⟩
  · subst h; rfl
  · subst hpk
    rcases hc with hc | hc
    · cases hg : pk.lng <;> simp [planItems, hc, hg]
    · cases hf : pk.lat <;> simp [planItems, hf, hc]

/-- C9: in the fresh-plan path with parkOnce active, when the parking lookup
failed or returned no usable coordinates (`parkOnceLocation` absent or
without numeric lat/lng), the plan is still produced — whenever the route
calls succeed — with no parking pseudo-stop (the plan's stop items are
exactly the enriched stops) and with every travel leg computed and emitted
in DRIVE mode. -/
theorem freshAssemble_noParking
    (route : Option LatLng → Option LatLng → Mode → Option ℚ)
    (parkingOracle : Option ParkingOption) (buffer totalMinutes : ℚ)
    (stops : List StopDetails)
    (hpark : parkingOracle = none ∨
      ∃ pk, parkingOracle = some pk ∧ (pk.lat = none ∨ pk.lng = none)) :
    (∀ items,
      freshAssemble route parkingOracle true buffer totalMinutes stops =
        .ok items →
      (stopEntries items).map Prod.fst = stops.map StopDetails.placeId ∧
      ∀ t d m, PlanItem.travel t d m ∈ items → m = Mode.DRIVE) ∧
    ((∀ a b md, (route a b md).isSome) →
      ∃ items,
        freshAssemble route parkingOracle true buffer totalMinutes stops =
          .ok items) := by
  have hP : parkOnceLoc true parkingOracle stops = none ∨
      ∃ pk, parkOnceLoc true parkingOracle stops = some pk ∧
        (pk.lat = none ∨ pk.lng = none) := by
    by_cases hlen : 0 < stops.length
    · simpa [parkOnceLoc, hlen] using hpark
    · simp [parkOnceLoc, hlen]
  have hlegs := planLegs_no_coords route _ buffer stops hP
  constructor
  · intro items hok
    unfold freshAssemble at hok
    dsimp only at hok
    rw [hlegs] at hok
    cases hleg : consecutiveLegs route Mode.DRIVE buffer stops with
    | error e => rw [hleg] at hok; exact absurd hok (by simp)
    | ok ls =>
      rw [hleg] at hok
      simp only [Except.ok.injEq] at hok
      rw [planItems_no_coords _ _ _ _ _ hP] at hok
      subst hok
      constructor
      · rw [stopEntries_driveItems, zipEntries_fst]
      · intro t d m hm
        exact driveItems_modes _ _ _ _ t d m hm
  · intro hroute
    obtain ⟨ls, hls⟩ := consecutiveLegs_total route Mode.DRIVE buffer hroute stops
    refine ⟨planItems (fun d => max 25 d) true
      (parkOnceLoc true parkingOracle stops) stops ls
      (splitStopDurations totalMinutes ls.sum stops.length), ?_⟩
    unfold freshAssemble
    dsimp only
    rw [hlegs, hls]

theorem freshAssemble_noParking_witness :
    (stopEntries [PlanItem.stop "s1" "A" 77 (some ⟨0, 0⟩) none,
        PlanItem.travel "Drive to B" 10 Mode.DRIVE,
        PlanItem.stop "s2" "B" 63 (some ⟨1, 1⟩) none]).map Prod.fst =
      ([⟨"s1", "A", some ⟨0, 0⟩, none⟩,
        ⟨"s2", "B", some ⟨1, 1⟩, none⟩] : List StopDetails).map
        StopDetails.placeId ∧
    ∀ t d m,
      PlanItem.travel t d m ∈ [PlanItem.stop "s1" "A" 77 (some ⟨0, 0⟩) none,
        PlanItem.travel "Drive to B" 10 Mode.DRIVE,
        PlanItem.stop "s2" "B" 63 (some ⟨1, 1⟩) none] → m = Mode.DRIVE :=
  (freshAssemble_noParking (fun _ _ _ => some 10) none 0 150
      [⟨"s1", "A", some ⟨0, 0⟩, none⟩, ⟨"s2", "B", some ⟨1, 1⟩, none⟩]
      (Or.inl rfl)).1
    [PlanItem.stop "s1" "A" 77 (some ⟨0, 0⟩) none,
     PlanItem.travel "Drive to B" 10 Mode.DRIVE,
     PlanItem.stop "s2" "B" 63 (some ⟨1, 1⟩) none]
    (by with_unfolding_all rfl)

theorem chooseReplacement_mem (fetch : String → Option Details) :
    ∀ (l : List Place) (rep : Place),
      chooseReplacement fetch l = some rep → rep ∈ l := by
  intro l
  induction l with
  | nil => intro rep h; simp [chooseReplacement] at h
  | cons c cs ih =>
    intro rep h
    unfold chooseReplacement at h
    by_cases hc : c.id = ""
    · rw [if_pos hc] at h
      exact List.mem_cons_of_mem c (ih rep h)
    · rw [if_neg hc] at h
      cases hf : fetch c.id with
      | none =>
        rw [hf] at h
        exact List.mem_cons_of_mem c (ih rep h)
      | some d =>
        rw [hf] at h
        dsimp only at h
        by_cases ho : d.openNow = some false
        · rw [if_pos ho] at h
          exact List.mem_cons_of_mem c (ih rep h)
        · rw [if_neg ho] at h
          rw [Option.some.injEq] at h
          subst h
          exact List.mem_cons_self c cs

theorem chooseReplacement_none (fetch : String → Option Details) :
    ∀ l : List Place,
      (∀ c ∈ l, fetch c.id = none ∨
        ∃ d, fetch c.id = some d ∧ d.openNow = some false) →
      chooseReplacement fetch l = none := by
  intro l
  induction l with
  | nil => intro _; rfl
  | cons c cs ih =>
    intro hall
    have hc := hall c (List.mem_cons_self c cs)
    have hrest := ih fun x hx => hall x (List.mem_cons_of_mem c hx)
    unfold chooseReplacement
    by_cases hid : c.id = ""
    · rw [if_pos hid]; exact hrest
    · rw [if_neg hid]
      rcases hc with hf | ⟨d, hf, ho⟩
      · rw [hf]; exact hrest
      · rw [hf]; dsimp only; rw [if_pos ho]; exact hrest

/-- C8: in the swap path only the top 12 filtered candidates (after the
descending score sort) are walked — any chosen replacement is one of them —
and when every one of those candidates either fails its detail re-fetch or
is explicitly marked closed, the swap request fails with the distinct
"No OPEN replacement found nearby" 404 error, and no plan is returned. -/
theorem swapBranch_top12 (haversineKm : LatLng → LatLng → ℚ)
    (fetch : String → Option Details) (searchResult : Option (List Place))
    (parkingOracle : Option ParkingOption)
    (route : Option LatLng → Option LatLng → Mode → Option ℚ)
    (hasKey : Bool) (r : SwapRequest) (pre : SwapPrepared)
    (hpre : swapPrepare fetch searchResult hasKey r = .ok pre) :
    (∀ rep,
      chooseReplacement fetch
        ((swapFiltered haversineKm pre.riderMode pre.excludeIds
          pre.targetCategory pre.swapCenter pre.maxKm pre.candidates).take 12)
        = some rep →
      rep ∈ (swapFiltered haversineKm pre.riderMode pre.excludeIds
        pre.targetCategory pre.swapCenter pre.maxKm pre.candidates).take 12) ∧
    ((∀ c ∈ (swapFiltered haversineKm pre.riderMode pre.excludeIds
        pre.targetCategory pre.swapCenter pre.maxKm pre.candidates).take 12,
        fetch c.id = none ∨
          ∃ d, fetch c.id = some d ∧ d.openNow = some false) →
      swapBranch haversineKm fetch searchResult parkingOracle route hasKey r =
        .error ⟨404, "No OPEN replacement found nearby"⟩) := by
  constructor
  · intro rep hrep
    exact chooseReplacement_mem fetch _ rep hrep
  · intro hall
    have hnone := chooseReplacement_none fetch _ hall
    unfold swapBranch
    rw [hpre]
    show swapFinish fetch parkingOracle route
      (swapFiltered haversineKm pre.riderMode pre.excludeIds
        pre.targetCategory pre.swapCenter pre.maxKm pre.candidates) pre = _
    unfold swapFinish
    rw [hnone]

/-- Details oracle of the closed-candidate scenario: the nearby candidate is
explicitly closed, every other place resolves with empty details. -/
def closedCandFetch : String → Option Details := fun id =>
  if id = "cand" then some { openNow := some false } else some {}

/-- Details oracle that finds every place and never marks it closed. -/
def alwaysOpenFetch : String → Option Details := fun _ => some {}

/-- The nearby candidate of the closed-candidate scenario. -/
def candClosed : Place := { id := "cand", location := some ⟨0, 0⟩ }

/-- A nearby candidate whose id equals the swapped-out place id "a". -/
def candSame : Place := { id := "a", location := some ⟨0, 0⟩ }

/-- A 2-stop swap request targeting index 0 (place id "a"). -/
def demoSwapReq : SwapRequest :=
  { destination := "d", swapIndex := some 0, swapPlaceId := "a",
    swapLat := some 0, swapLng := some 0,
    stops := [{ placeId := "a", title := "A", durationMin := some (some 40),
                lat := some 0, lng := some 0 },
              { placeId := "b", title := "B", durationMin := some (some 50),
                lat := some 1, lng := some 1 }] }

/-- What `swapPrepare` computes for `demoSwapReq` given a candidate list. -/
def demoPrepared (cands : List Place) : SwapPrepared :=
  { destination := "d", totalMinutes := 150, parkOnce := false,
    riderMode := false, bufferMinutes := 0,
    stopsInput := [⟨"a", "A", 40, some 0, some 0⟩,
                   ⟨"b", "B", 50, some 1, some 1⟩],
    idx := 0, swapPlaceId := "a", swapCenter := ⟨0, 0⟩,
    targetCategory := Category.attraction, excludeIds := ["b"], maxKm := 4,
    candidates := cands }

theorem swapBranch_top12_witness :
    swapPrepare closedCandFetch (some [candClosed]) true demoSwapReq =
        .ok (demoPrepared [candClosed]) ∧
      swapBranch (fun _ _ => 0) closedCandFetch (some [candClosed]) none
        (fun _ _ _ => some 10) true demoSwapReq =
        .error ⟨404, "No OPEN replacement found nearby"⟩ := by
  have hpre : swapPrepare closedCandFetch (some [candClosed]) true
      demoSwapReq = .ok (demoPrepared [candClosed]) := by
    with_unfolding_all rfl
  refine ⟨hpre, ?_⟩
  have hpool : swapPool (fun _ _ => 0) (demoPrepared [candClosed]).excludeIds
      (demoPrepared [candClosed]).targetCategory
      (demoPrepared [candClosed]).swapCenter (demoPrepared [candClosed]).maxKm
      (demoPrepared [candClosed]).candidates = [candClosed] := by
    with_unfolding_all rfl
  have hall : ∀ c ∈ (swapFiltered (fun _ _ => 0)
      (demoPrepared [candClosed]).riderMode
      (demoPrepared [candClosed]).excludeIds
      (demoPrepared [candClosed]).targetCategory
      (demoPrepared [candClosed]).swapCenter (demoPrepared [candClosed]).maxKm
      (demoPrepared [candClosed]).candidates).take 12,
      closedCandFetch c.id = none ∨
        ∃ d, closedCandFetch c.id = some d ∧ d.openNow = some false := by
    unfold swapFiltered
    rw [hpool]
    intro c hc
    have hc2 := List.mem_of_mem_take hc
    rw [List.mem_mergeSort, List.mem_singleton] at hc2
    subst hc2
    exact Or.inr ⟨{ openNow := some false }, by with_unfolding_all rfl, rfl⟩
  exact (swapBranch_top12 (fun _ _ => 0) closedCandFetch (some [candClosed])
    none (fun _ _ _ => some 10) true demoSwapReq (demoPrepared [candClosed])
    hpre).2 hall

/-- C2 as stated is false at a concrete input: route.ts line 441 deletes the
swapped-out place id from the exclusion set, so a nearby candidate with the
very same id "a" passes the filter and is accepted as the replacement — the
"swap" succeeds and returns a plan whose swapped stop still has the
swapped-out place id "a". -/
theorem swapReplacement_claim_false :
    demoSwapReq.swapPlaceId = "a" ∧
    (demoSwapReq.stops.getD 0 default).placeId = "a" ∧
    candSame.id = "a" ∧
    swapBranch (fun _ _ => 0) alwaysOpenFetch (some [candSame]) none
      (fun _ _ _ => some 10) true demoSwapReq =
      .ok [PlanItem.stop "a" "A" 40 none none,
           PlanItem.travel "Drive to B" 10 Mode.DRIVE,
           PlanItem.stop "b" "B" 50 none none] := by
  refine ⟨rfl, rfl, rfl, ?_⟩
  have hpre : swapPrepare alwaysOpenFetch (some [candSame]) true demoSwapReq =
      .ok (demoPrepared [candSame]) := by
    with_unfolding_all rfl
  have hpool : swapPool (fun _ _ => 0) (demoPrepared [candSame]).excludeIds
      (demoPrepared [candSame]).targetCategory
      (demoPrepared [candSame]).swapCenter (demoPrepared [candSame]).maxKm
      (demoPrepared [candSame]).candidates = [candSame] := by
    with_unfolding_all rfl
  have hswf : swapFiltered (fun _ _ => 0) (demoPrepared [candSame]).riderMode
      (demoPrepared [candSame]).excludeIds
      (demoPrepared [candSame]).targetCategory
      (demoPrepared [candSame]).swapCenter (demoPrepared [candSame]).maxKm
      (demoPrepared [candSame]).candidates = [candSame] := by
    unfold swapFiltered
    rw [hpool]
    simp
  unfold swapBranch
  rw [hpre]
  show swapFinish alwaysOpenFetch none (fun _ _ _ => some 10)
    (swapFiltered (fun _ _ => 0) (demoPrepared [candSame]).riderMode
      (demoPrepared [candSame]).excludeIds
      (demoPrepared [candSame]).targetCategory
      (demoPrepared [candSame]).swapCenter (demoPrepared [candSame]).maxKm
      (demoPrepared [candSame]).candidates) (demoPrepared [candSame]) = _
  rw [hswf]
  with_unfolding_all rfl

theorem swapIndexVal_nonneg (x : Option ℤ) : 0 ≤ swapIndexVal x := by
  cases x with
  | none => exact le_refl 0
  | some n => exact le_max_left 0 _

theorem swapPrepare_fields (fetch : String → Option Details)
    (searchResult : Option (List Place)) (hasKey : Bool) (r : SwapRequest)
    (pre : SwapPrepared)
    (hpre : swapPrepare fetch searchResult hasKey r = .ok pre) :
    pre.stopsInput = parseStops r.stops ∧
    pre.excludeIds = (pre.stopsInput.map Stop.placeId).filter
      (fun x => x != r.swapPlaceId) ∧
    pre.idx < pre.stopsInput.length ∧
    2 ≤ pre.stopsInput.length ∧
    pre.swapPlaceId = r.swapPlaceId ∧
    pre.idx = (swapIndexVal r.swapIndex).toNat := by
  unfold swapPrepare at hpre
  dsimp only at hpre
  split at hpre
  · simp at hpre
  split at hpre
  · simp at hpre
  split at hpre
  · simp at hpre
  split at hpre
  · simp at hpre
  split at hpre
  · simp at hpre
  rename_i hdest hkey hlen hidx hvalid
  rw [Except.ok.injEq] at hpre
  subst hpre
  have hnn := swapIndexVal_nonneg r.swapIndex
  refine ⟨rfl, rfl, ?_, ?_, rfl, rfl⟩
  · show (swapIndexVal r.swapIndex).toNat < (parseStops r.stops).length
    simp only [not_or, not_lt, not_le] at hidx
    omega
  · show 2 ≤ (parseStops r.stops).length
    omega

/-- C2 amended: the exclusion set contains every already-used place id
EXCEPT the one being replaced — route.ts line 441 deletes `swapPlaceId` from
the set rather than keeping it — so the chosen replacement's place id never
equals any OTHER stop's place id, but it may equal the swapped-out stop's
own id: the swapped-out place can reappear as its own replacement (see the
counterexample). -/
theorem swapReplacement_excludes_others (haversineKm : LatLng → LatLng → ℚ)
    (fetch : String → Option Details) (searchResult : Option (List Place))
    (hasKey : Bool) (r : SwapRequest) (pre : SwapPrepared) (rep : Place)
    (hpre : swapPrepare fetch searchResult hasKey r = .ok pre)
    (hrep : chooseReplacement fetch
      ((swapFiltered haversineKm pre.riderMode pre.excludeIds
        pre.targetCategory pre.swapCenter pre.maxKm pre.candidates).take 12) =
      some rep) :
    ∀ s ∈ pre.stopsInput, s.placeId ≠ r.swapPlaceId → rep.id ≠ s.placeId := by
  obtain ⟨_, h2, _, _, h5, _⟩ :=
    swapPrepare_fields fetch searchResult hasKey r pre hpre
  have hmem0 := chooseReplacement_mem fetch _ rep hrep
  have hmem1 := List.mem_of_mem_take hmem0
  unfold swapFiltered at hmem1
  rw [List.mem_mergeSort] at hmem1
  obtain ⟨hm2, _⟩ := List.mem_filter.1 hmem1
  obtain ⟨hm3, _⟩ := List.mem_filter.1 hm2
  obtain ⟨hm4, _⟩ := List.mem_filter.1 hm3
  obtain ⟨hm5, hexcl⟩ := List.mem_filter.1 hm4
  have hnotin : rep.id ∉ pre.excludeIds := by simpa using hexcl
  intro s hs hne heq
  apply hnotin
  rw [h2, List.mem_filter]
  refine ⟨List.mem_map.2 ⟨s, hs, heq.symm⟩, ?_⟩
  rw [heq]
  simpa using h5 ▸ hne

theorem swapReplacement_excludes_others_witness :
    swapPrepare alwaysOpenFetch (some [candSame]) true demoSwapReq =
        .ok (demoPrepared [candSame]) ∧
      ∀ s ∈ (demoPrepared [candSame]).stopsInput,
        s.placeId ≠ demoSwapReq.swapPlaceId → candSame.id ≠ s.placeId := by
  have hpre : swapPrepare alwaysOpenFetch (some [candSame]) true demoSwapReq =
      .ok (demoPrepared [candSame]) := by
    with_unfolding_all rfl
  have hpool : swapPool (fun _ _ => 0) (demoPrepared [candSame]).excludeIds
      (demoPrepared [candSame]).targetCategory
      (demoPrepared [candSame]).swapCenter (demoPrepared [candSame]).maxKm
      (demoPrepared [candSame]).candidates = [candSame] := by
    with_unfolding_all rfl
  have hrep : chooseReplacement alwaysOpenFetch
      ((swapFiltered (fun _ _ => 0) (demoPrepared [candSame]).riderMode
        (demoPrepared [candSame]).excludeIds
        (demoPrepared [candSame]).targetCategory
        (demoPrepared [candSame]).swapCenter (demoPrepared [candSame]).maxKm
        (demoPrepared [candSame]).candidates).take 12) = some candSame := by
    unfold swapFiltered
    rw [hpool]
    have hms : List.mergeSort [candSame] (scoreLe
        (demoPrepared [candSame]).riderMode) = [candSame] := by simp
    rw [hms]
    with_unfolding_all rfl
  exact ⟨hpre, swapReplacement_excludes_others (fun _ _ => 0) alwaysOpenFetch
    (some [candSame]) true demoSwapReq (demoPrepared [candSame]) candSame
    hpre hrep⟩

theorem stopEntries_append : ∀ l1 l2 : List PlanItem,
    stopEntries (l1 ++ l2) = stopEntries l1 ++ stopEntries l2 := by
  intro l1
  induction l1 with
  | nil => intro l2; rfl
  | cons x rest ih =>
    intro l2
    cases x with
    | stop pid t d lc o => simp [stopEntries, ih]
    | travel t d m => simp [stopEntries, ih]

theorem stopEntries_planItems (adjust : ℚ → ℚ) (parkOnce : Bool)
    (parkLoc : Option ParkingOption) (stops : List StopDetails)
    (tm sd : List ℚ) :
    ∃ parkPre, (parkPre = [] ∨ ∃ e : String × ℚ, parkPre = [e] ∧ e.2 = 5) ∧
      stopEntries (planItems adjust parkOnce parkLoc stops tm sd) =
        parkPre ++ zipEntries adjust stops sd := by
  cases parkOnce with
  | false =>
    exact ⟨[], Or.inl rfl, by simp [planItems, stopEntries_driveItems]⟩
  | true =>
    cases parkLoc with
    | none =>
      exact ⟨[], Or.inl rfl, by simp [planItems, stopEntries_driveItems]⟩
    | some pk =>
      cases hlat : pk.lat with
      | none =>
        exact ⟨[], Or.inl rfl,
          by simp [planItems, hlat, stopEntries_driveItems]⟩
      | some plat =>
        cases hlng : pk.lng with
        | none =>
          exact ⟨[], Or.inl rfl,
            by simp [planItems, hlat, hlng, stopEntries_driveItems]⟩
        | some plng =>
          refine ⟨[(parkingPlaceId pk, 5)], Or.inr ⟨_, rfl, rfl⟩, ?_⟩
          have hstep : planItems adjust true (some pk) stops tm sd =
              PlanItem.stop (parkingPlaceId pk) "Park once" 5
                  (some ⟨plat, plng⟩) none ::
                (match tm with
                 | [] => []
                 | m :: _ => [PlanItem.travel ("Walk to " ++ firstTitle stops)
                     m Mode.WALK]) ++
                walkItems adjust stops sd (tm.drop 1) := by
            simp [planItems, hlat, hlng]
          rw [hstep]
          cases tm with
          | nil =>
            simp [stopEntries, stopEntries_append, stopEntries_walkItems]
          | cons m ms =>
            simp [stopEntries, stopEntries_append, stopEntries_walkItems]

theorem enrichStops_ids (fetch : String → Option Details) :
    ∀ (l : List Stop) (out : List StopDetails),
      enrichStops fetch l = .ok out →
      out.map StopDetails.placeId = l.map Stop.placeId := by
  intro l
  induction l with
  | nil =>
    intro out h
    unfold enrichStops at h
    rw [Except.ok.injEq] at h
    subst h
    rfl
  | cons s ss ih =>
    intro out h
    unfold enrichStops at h
    cases hf : fetch s.placeId with
    | none => rw [hf] at h; simp at h
    | some d =>
      rw [hf] at h
      dsimp only at h
      by_cases ho : d.openNow = some false
      · rw [if_pos ho] at h; simp at h
      · rw [if_neg ho] at h
        cases he : enrichStops fetch ss with
        | error e => rw [he] at h; simp at h
        | ok rest =>
          rw [he] at h
          rw [Except.ok.injEq] at h
          subst h
          simp [ih rest he]

theorem getD_tail {α : Type} (l : List α) (i : ℕ) (d : α) :
    l.tail.getD i d = l.getD (i + 1) d := by
  cases l <;> simp

theorem headD_eq_getD {α : Type} (l : List α) (d : α) :
    l.headD d = l.getD 0 d := by
  cases l <;> simp

theorem zipEntries_length (adjust : ℚ → ℚ) :
    ∀ (stops : List StopDetails) (durs : List ℚ),
      (zipEntries adjust stops durs).length = stops.length := by
  intro stops
  induction stops with
  | nil => intro durs; rfl
  | cons s rest ih => intro durs; simp [zipEntries, ih]

theorem zipEntries_getD (adjust : ℚ → ℚ) :
    ∀ (stops : List StopDetails) (durs : List ℚ) (i : ℕ),
      i < stops.length →
      (zipEntries adjust stops durs).getD i ("", 0) =
        ((stops.getD i default).placeId, adjust (durs.getD i 40)) := by
  intro stops
  induction stops with
  | nil => intro durs i h; simp at h
  | cons s rest ih =>
    intro durs i h
    cases i with
    | zero => cases durs <;> simp [zipEntries]
    | succ i =>
      have h2 : i < rest.length := by simpa using h
      simp only [zipEntries, List.getD_cons_succ]
      rw [ih durs.tail i h2, getD_tail]

theorem clamp_clamp (n : JsNumber) (lo hi : ℚ) (h : lo ≤ hi) :
    clamp (some (clamp n lo hi)) lo hi = clamp n lo hi := by
  have hm := clamp_mem n lo hi h
  show max lo (min hi (clamp n lo hi)) = clamp n lo hi
  rw [min_eq_right hm.2, max_eq_right hm.1]

theorem getD_set {α : Type} [Inhabited α] (l : List α) (m n : ℕ) (a : α)
    (hm : m < l.length) :
    (l.set m a).getD n default = if m = n then a else l.getD n default := by
  by_cases hmn : m = n
  · subst hmn
    simp [List.getD_eq_getElem?_getD, List.getElem?_set, hm]
  · simp [List.getD_eq_getElem?_getD, List.getElem?_set, hmn]

theorem parseStops_of_ids (l : List RawStop)
    (hids : ∀ s ∈ l, s.placeId ≠ "") :
    parseStops l = l.map parseStop := by
  unfold parseStops
  apply List.filter_eq_self.2
  intro a ha
  obtain ⟨s, hs, rfl⟩ := List.mem_map.1 ha
  simpa [parseStop] using hids s hs

/-- C1: for every valid swap request whose raw stops all carry a non-empty
placeId and for which the swap branch succeeds, the rebuilt plan's stop
entries are — after an optional leading "Park once" pseudo-stop of duration
5 — exactly one entry per input stop: at every index other than the swap
index the place id is the caller's input place id (only the swapped index's
id changes, to the replacement's id), and every entry's duration is the
client-supplied durationMin clamped to [20, 180] (preserved, not
recomputed). -/
theorem swapBranch_frame (haversineKm : LatLng → LatLng → ℚ)
    (fetch : String → Option Details) (searchResult : Option (List Place))
    (parkingOracle : Option ParkingOption)
    (route : Option LatLng → Option LatLng → Mode → Option ℚ)
    (hasKey : Bool) (r : SwapRequest) (pre : SwapPrepared)
    (items : List PlanItem)
    (hids : ∀ s ∈ r.stops, s.placeId ≠ "")
    (hpre : swapPrepare fetch searchResult hasKey r = .ok pre)
    (hok : swapBranch haversineKm fetch searchResult parkingOracle route
      hasKey r = .ok items) :
    ∃ repId parkPre entries,
      (parkPre = [] ∨ ∃ e : String × ℚ, parkPre = [e] ∧ e.2 = 5) ∧
      stopEntries items = parkPre ++ entries ∧
      entries.length = r.stops.length ∧
      ∀ i, i < r.stops.length →
        entries.getD i ("", 0) =
          ((if i = pre.idx then repId
            else (r.stops.getD i default).placeId),
           clamp ((r.stops.getD i default).durationMin.getD (some 40))
             20 180) := by
  obtain ⟨h1, _, h3, _, _, _⟩ :=
    swapPrepare_fields fetch searchResult hasKey r pre hpre
  have hparse : parseStops r.stops = r.stops.map parseStop :=
    parseStops_of_ids r.stops hids
  have hlenSI : pre.stopsInput.length = r.stops.length := by
    rw [h1, hparse]; simp
  unfold swapBranch at hok
  rw [hpre] at hok
  dsimp only at hok
  unfold swapFinish at hok
  cases hch : chooseReplacement fetch ((swapFiltered haversineKm
      pre.riderMode pre.excludeIds pre.targetCategory pre.swapCenter
      pre.maxKm pre.candidates).take 12) with
  | none => rw [hch] at hok; simp at hok
  | some rep =>
  rw [hch] at hok
  dsimp only at hok
  by_cases hrid : rep.id = ""
  · rw [if_pos hrid] at hok; simp at hok
  rw [if_neg hrid] at hok
  cases hen : enrichStops fetch
      (buildNextStops pre.stopsInput pre.idx rep.id) with
  | error e => rw [hen] at hok; simp at hok
  | ok stops =>
  rw [hen] at hok
  dsimp only at hok
  cases hleg : planLegs route pre.parkOnce
      (parkOnceLoc pre.parkOnce parkingOracle stops) pre.bufferMinutes
      stops with
  | error e => rw [hleg] at hok; simp at hok
  | ok travelMins =>
  rw [hleg] at hok
  rw [Except.ok.injEq] at hok
  subst hok
  obtain ⟨parkPre, hshape, hentries⟩ := stopEntries_planItems (fun d => d)
    pre.parkOnce (parkOnceLoc pre.parkOnce parkingOracle stops) stops
    travelMins
    (swapStopDurations (buildNextStops pre.stopsInput pre.idx rep.id))
  have hidsmap := enrichStops_ids fetch _ stops hen
  have hlenStops : stops.length =
      (buildNextStops pre.stopsInput pre.idx rep.id).length := by
    have := congrArg List.length hidsmap
    simpa using this
  have hlenNext : (buildNextStops pre.stopsInput pre.idx rep.id).length =
      pre.stopsInput.length := by
    unfold buildNextStops
    simp
  refine ⟨rep.id, parkPre, _, hshape, hentries, ?_, ?_⟩
  · rw [zipEntries_length]
    omega
  · intro i hi
    have hiS : i < stops.length := by omega
    have hiSI : i < pre.stopsInput.length := by omega
    have hiN : i < (buildNextStops pre.stopsInput pre.idx rep.id).length := by
      omega
    rw [zipEntries_getD _ _ _ i hiS]
    have e1 : (stops.map StopDetails.placeId).getD i "" =
        (stops.getD i default).placeId :=
      List.getD_map stops default StopDetails.placeId
    have e2 : ((buildNextStops pre.stopsInput pre.idx rep.id).map
        Stop.placeId).getD i "" =
        ((buildNextStops pre.stopsInput pre.idx rep.id).getD i
          default).placeId :=
      List.getD_map (buildNextStops pre.stopsInput pre.idx rep.id) default
        Stop.placeId
    have hpid : (stops.getD i default).placeId =
        ((buildNextStops pre.stopsInput pre.idx rep.id).getD i
          default).placeId := by
      rw [← e1, ← e2, hidsmap]
    have hset : (buildNextStops pre.stopsInput pre.idx rep.id).getD i
        default =
        if pre.idx = i then
          { pre.stopsInput.getD pre.idx default with placeId := rep.id }
        else pre.stopsInput.getD i default := by
      unfold buildNextStops
      exact getD_set pre.stopsInput pre.idx i _ h3
    have e4 : ∀ j, j < pre.stopsInput.length →
        pre.stopsInput.getD j default = parseStop (r.stops.getD j default) := by
      intro j hj
      have hjR : j < r.stops.length := by omega
      rw [List.getD_eq_getElem _ _ hj, List.getD_eq_getElem _ _ hjR]
      simp [h1, hparse]
    have e3 : (swapStopDurations
        (buildNextStops pre.stopsInput pre.idx rep.id)).getD i 40 =
        clamp (some (((buildNextStops pre.stopsInput pre.idx
          rep.id).getD i default).durationMin)) 20 180 := by
      have hiD : i < (swapStopDurations
          (buildNextStops pre.stopsInput pre.idx rep.id)).length := by
        unfold swapStopDurations
        simpa using hiN
      rw [List.getD_eq_getElem _ _ hiD, List.getD_eq_getElem _ _ hiN]
      simp [swapStopDurations]
    rw [Prod.mk.injEq]
    constructor
    · rw [hpid, hset]
      by_cases hix : pre.idx = i
      · rw [if_pos hix, if_pos hix.symm]
      · rw [if_neg hix, if_neg (fun hc => hix hc.symm)]
        rw [e4 i hiSI]
        rfl
    · show (swapStopDurations
          (buildNextStops pre.stopsInput pre.idx rep.id)).getD i 40 = _
      rw [e3, hset]
      by_cases hix : pre.idx = i
      · rw [if_pos hix]
        have : ({ pre.stopsInput.getD pre.idx default with
            placeId := rep.id } : Stop).durationMin =
            (pre.stopsInput.getD pre.idx default).durationMin := rfl
        rw [this, hix, e4 i hiSI]
        show clamp (some (clamp ((r.stops.getD i default).durationMin.getD
          (some 40)) 20 180)) 20 180 = _
        exact clamp_clamp _ 20 180 (by norm_num)
      · rw [if_neg hix, e4 i hiSI]
        show clamp (some (clamp ((r.stops.getD i default).durationMin.getD
          (some 40)) 20 180)) 20 180 = _
        exact clamp_clamp _ 20 180 (by norm_num)

/-- A nearby candidate with a new place id "c". -/
def candNew : Place := { id := "c", location := some ⟨0, 0⟩ }

theorem swapBranch_frame_witness :
    (∀ s ∈ demoSwapReq.stops, s.placeId ≠ "") ∧
    ∃ repId parkPre entries,
      (parkPre = [] ∨ ∃ e : String × ℚ, parkPre = [e] ∧ e.2 = 5) ∧
      stopEntries [PlanItem.stop "c" "A" 40 none none,
        PlanItem.travel "Drive to B" 10 Mode.DRIVE,
        PlanItem.stop "b" "B" 50 none none] = parkPre ++ entries ∧
      entries.length = demoSwapReq.stops.length ∧
      ∀ i, i < demoSwapReq.stops.length →
        entries.getD i ("", 0) =
          ((if i = (demoPrepared [candNew]).idx then repId
            else (demoSwapReq.stops.getD i default).placeId),
           clamp ((demoSwapReq.stops.getD i default).durationMin.getD
             (some 40)) 20 180) := by
  have hids : ∀ s ∈ demoSwapReq.stops, s.placeId ≠ "" := by decide
  have hpre : swapPrepare alwaysOpenFetch (some [candNew]) true demoSwapReq =
      .ok (demoPrepared [candNew]) := by
    with_unfolding_all rfl
  have hpool : swapPool (fun _ _ => 0) (demoPrepared [candNew]).excludeIds
      (demoPrepared [candNew]).targetCategory
      (demoPrepared [candNew]).swapCenter (demoPrepared [candNew]).maxKm
      (demoPrepared [candNew]).candidates = [candNew] := by
    with_unfolding_all rfl
  have hswf : swapFiltered (fun _ _ => 0) (demoPrepared [candNew]).riderMode
      (demoPrepared [candNew]).excludeIds
      (demoPrepared [candNew]).targetCategory
      (demoPrepared [candNew]).swapCenter (demoPrepared [candNew]).maxKm
      (demoPrepared [candNew]).candidates = [candNew] := by
    unfold swapFiltered
    rw [hpool]
    simp
  have hok : swapBranch (fun _ _ => 0) alwaysOpenFetch (some [candNew]) none
      (fun _ _ _ => some 10) true demoSwapReq =
      .ok [PlanItem.stop "c" "A" 40 none none,
           PlanItem.travel "Drive to B" 10 Mode.DRIVE,
           PlanItem.stop "b" "B" 50 none none] := by
    unfold swapBranch
    rw [hpre]
    show swapFinish alwaysOpenFetch none (fun _ _ _ => some 10)
      (swapFiltered (fun _ _ => 0) (demoPrepared [candNew]).riderMode
        (demoPrepared [candNew]).excludeIds
        (demoPrepared [candNew]).targetCategory
        (demoPrepared [candNew]).swapCenter (demoPrepared [candNew]).maxKm
        (demoPrepared [candNew]).candidates) (demoPrepared [candNew]) = _
    rw [hswf]
    with_unfolding_all rfl
  exact ⟨hids, swapBranch_frame (fun _ _ => 0) alwaysOpenFetch
    (some [candNew]) none (fun _ _ _ => some 10) true demoSwapReq
    (demoPrepared [candNew]) _ hids hpre hok⟩
